import Mathlib

/-
Verification development for the audio waveform / keyboard spotting analyzer
(src/app/page.tsx).  The component's state and its event handlers are given a
shallow embedding: JavaScript numbers become exact rationals (ℚ), the
Float32Array of decoded samples becomes a `List ℚ`, the `Set<string>` of
selected ids becomes a `Finset String`, and each React state-setter call
becomes a pure state-to-state function.  Platform collaborators (microphone
capture, audio decoding, canvas drawing, zip archiving, DOM events) are out of
scope; handlers take their decoded inputs as parameters.
-/

namespace KeySpot

/-- One recorded key press (interface `KeyPress` in src/app/page.tsx):
`startTime`/`endTime` delimit the extraction window around `time`. -/
structure KeyPress where
  id : String
  key : String
  code : String
  time : ℚ
  startTime : ℚ
  endTime : ℚ
  selected : Bool
deriving Repr, DecidableEq, Inhabited

/-- Decoded audio (interface `AudioData`): mono samples plus the separately
stored duration (seconds) and sample rate (Hz), as delivered by the platform
decoder.  The opaque `buffer` handle is not modelled. -/
structure AudioData where
  samples : List ℚ
  duration : ℚ
  sampleRate : ℕ
deriving Repr, DecidableEq, Inhabited

/-- The component state relevant to the claims: `audioData`, `keyPresses`,
`selectedKeyPresses`, zoom/pan, and the trim markers. -/
structure AppState where
  audioData : Option AudioData
  keyPresses : List KeyPress
  selectedKeyPresses : Finset String
  zoomLevel : ℚ
  panOffset : ℚ
  trimStart : Option ℚ
  trimEnd : Option ℚ
deriving DecidableEq

/-- Initial React state: no audio, no presses, empty selection, zoom 1, pan 0,
no trim markers. -/
def initialState : AppState :=
  { audioData := none, keyPresses := [], selectedKeyPresses := ∅,
    zoomLevel := 1, panOffset := 0, trimStart := none, trimEnd := none }

/-- The `KeyPress` literal built in `handleKeyDown` (page.tsx:230-238):
`startTime = max(0, t - 0.5)`, `endTime = t + 0.5`, `selected = false`.
The id is the opaque token `key-<Date.now()>-<Math.random()>`. -/
def mkKeyPress (id key code : String) (t : ℚ) : KeyPress :=
  { id := id, key := key, code := code, time := t,
    startTime := max 0 (t - 1/2), endTime := t + 1/2, selected := false }

/-- `handleKeyDown` during recording (page.tsx:222-251): appends the new press.
The `activeKeys` highlight set is presentation-only and not modelled. -/
def handleKeyDown (s : AppState) (id key code : String) (t : ℚ) : AppState :=
  { s with keyPresses := s.keyPresses ++ [mkKeyPress id key code t] }

/-- `startRecording` (page.tsx:273-310): its only state change to the modelled
fields is `setKeyPresses([])` (clear previous key presses).  Note that it does
NOT touch `selectedKeyPresses`. -/
def startRecording (s : AppState) : AppState :=
  { s with keyPresses := [] }

/-- Clamp applied in `processAudioBlob` (page.tsx:344-349) to one press:
`endTime := min(endTime, duration)`. -/
def clampKeyPress (duration : ℚ) (kp : KeyPress) : KeyPress :=
  { kp with endTime := min kp.endTime duration }

/-- `processAudioBlob` (page.tsx:326-365) after the platform decoder has
produced `ad`: store the audio and clamp every press's `endTime` to the new
duration.  (Used both when a recording stops and on file upload.) -/
def processAudioBlob (s : AppState) (ad : AudioData) : AppState :=
  { s with audioData := some ad,
           keyPresses := s.keyPresses.map (clampKeyPress ad.duration) }

/-- The distance scanned in `handleCanvasClick`:
`Math.abs(keyPress.time - clickTime)`. -/
def keyDistance (clickTime : ℚ) (kp : KeyPress) : ℚ :=
  |kp.time - clickTime|

/-- One iteration of the `for (const keyPress of keyPresses)` loop in
`handleCanvasClick` (page.tsx:620-626).  The accumulator is `closestKey`;
`minDistance` is `+∞` exactly when `closestKey` is `null` and
`|closestKey.time - clickTime|` otherwise, so it is not carried separately.
The update fires when `distance < minDistance && distance < 0.1`. -/
def scanStep (clickTime : ℚ) (closest : Option KeyPress) (kp : KeyPress) :
    Option KeyPress :=
  match closest with
  | none => if keyDistance clickTime kp < 1/10 then some kp else none
  | some c =>
      if keyDistance clickTime kp < keyDistance clickTime c ∧
         keyDistance clickTime kp < 1/10
      then some kp else some c

/-- The full scan of `handleCanvasClick`: fold of `scanStep` starting from
`closestKey = null`, `minDistance = +∞`. -/
def findClosestKey (clickTime : ℚ) (presses : List KeyPress) : Option KeyPress :=
  presses.foldl (scanStep clickTime) none

/-- The selection update shared by `handleCanvasClick` (page.tsx:628-643) and
the timeline-entry `onClick` (page.tsx:1301-1315): toggle `targetId` in the
selected-id set, then rewrite every press's `selected` flag from the new set. -/
def toggleSelection (s : AppState) (targetId : String) : AppState :=
  let newSelected : Finset String :=
    if targetId ∈ s.selectedKeyPresses
    then s.selectedKeyPresses.erase targetId
    else insert targetId s.selectedKeyPresses
  { s with selectedKeyPresses := newSelected,
           keyPresses := s.keyPresses.map
             (fun kp => { kp with selected := decide (kp.id ∈ newSelected) }) }

/-- `handleCanvasClick` (page.tsx:605-646) at an already-converted click time
`clickTime = panOffset + (x / canvas.width) * (duration / zoomLevel)`:
guard on `audioData`, scan for the closest press, toggle it if found. -/
def handleCanvasClick (s : AppState) (clickTime : ℚ) : AppState :=
  match s.audioData with
  | none => s
  | some _ =>
      match findClosestKey clickTime s.keyPresses with
      | none => s
      | some ck => toggleSelection s ck.id

/-- The timeline-list entry click (page.tsx:1301-1315); the source inlines the
same dual update as the canvas path. -/
def timelineEntryClick (s : AppState) (kp : KeyPress) : AppState :=
  toggleSelection s kp.id

/-- "Select All" (page.tsx:1268-1272, also the Ctrl+A shortcut). -/
def selectAllPresses (s : AppState) : AppState :=
  { s with selectedKeyPresses := (s.keyPresses.map (fun kp => kp.id)).toFinset,
           keyPresses := s.keyPresses.map (fun kp => { kp with selected := true }) }

/-- "Clear All" / deselect all (page.tsx:1280-1283, also Ctrl+D). -/
def clearAllPresses (s : AppState) : AppState :=
  { s with selectedKeyPresses := ∅,
           keyPresses := s.keyPresses.map (fun kp => { kp with selected := false }) }

/-- `handleWheel` (page.tsx:649-653): `zoomFactor` is `0.9` on wheel-down and
`1.1` on wheel-up; the new zoom is `max(1, min(20, prev * zoomFactor))`.
`panOffset` is not touched. -/
def handleWheel (s : AppState) (wheelDown : Bool) : AppState :=
  { s with zoomLevel := max 1 (min 20 (s.zoomLevel *
             (if wheelDown then 9/10 else 11/10))) }

/-- Zoom-in button (page.tsx:1201): `min(20, prev * 1.2)`. -/
def zoomInButton (s : AppState) : AppState :=
  { s with zoomLevel := min 20 (s.zoomLevel * (6/5)) }

/-- Zoom-out button (page.tsx:1209): `max(1, prev / 1.2)`. -/
def zoomOutButton (s : AppState) : AppState :=
  { s with zoomLevel := max 1 (s.zoomLevel / (6/5)) }

/-- "Reset View" button (page.tsx:1217-1220). -/
def resetView (s : AppState) : AppState :=
  { s with zoomLevel := 1, panOffset := 0 }

/-- `handleMouseMove` while dragging (page.tsx:661-676), parameterized by the
already-converted pan delta
`panDelta = -(deltaX / canvas.width) * (duration / zoomLevel)`:
the new pan offset is
`max(0, min(duration - duration / zoomLevel, prev + panDelta))`. -/
def handleMouseMove (s : AppState) (panDelta : ℚ) : AppState :=
  match s.audioData with
  | none => s
  | some ad =>
      { s with panOffset := max 0 (min (ad.duration - ad.duration / s.zoomLevel)
                              (s.panOffset + panDelta)) }

/-- `startSample` in `exportSelectedSegments` (page.tsx:716):
`Math.floor(keyPress.startTime * sampleRate)`. -/
def startSample (sampleRate : ℕ) (kp : KeyPress) : ℤ :=
  ⌊kp.startTime * sampleRate⌋

/-- `endSample` (page.tsx:717): `Math.floor(keyPress.endTime * sampleRate)`. -/
def endSample (sampleRate : ℕ) (kp : KeyPress) : ℤ :=
  ⌊kp.endTime * sampleRate⌋

/-- `segmentLength` (page.tsx:718): `endSample - startSample`, an integer which
the source passes to `createBuffer` and uses as the copy-loop bound. -/
def segmentLength (sampleRate : ℕ) (kp : KeyPress) : ℤ :=
  endSample sampleRate kp - startSample sampleRate kp

/-- Indexing `audioData.samples[i] || 0` (page.tsx:725): an out-of-bounds read
of the Float32Array yields `undefined`, and `undefined || 0` is `0`; for an
in-bounds value `v`, `v || 0` is `v` (a read `0.0` also maps to `0`). -/
def sampleAt (samples : List ℚ) (i : ℤ) : ℚ :=
  if 0 ≤ i ∧ i.toNat < samples.length then samples.getD i.toNat 0 else 0

/-- The copy loop of `exportSelectedSegments` (page.tsx:723-726):
`for (j = 0; j < segmentLength; j++) segmentData[j] = samples[startSample+j] || 0`.
The loop body runs `max(segmentLength, 0)` times (`.toNat`), producing the
per-event segment's channel data. -/
def extractSegment (ad : AudioData) (kp : KeyPress) : List ℚ :=
  (List.range (segmentLength ad.sampleRate kp).toNat).map
    (fun j : ℕ => sampleAt ad.samples (startSample ad.sampleRate kp + (j : ℤ)))

/-- `writeString` (page.tsx:767-771): one byte per character code. -/
def asciiBytes (s : String) : List ℕ :=
  s.toList.map Char.toNat

/-- `view.setUint16(offset, v, true)`: the value modulo 2^16 in little-endian
byte order (the `% 256`/`/ 256 % 256` extraction discards higher bits exactly
as the wrap does). -/
def toUInt16Bytes (v : ℕ) : List ℕ :=
  [v % 256, v / 256 % 256]

/-- `view.setUint32(offset, v, true)`: the value modulo 2^32 in little-endian
byte order. -/
def toUInt32Bytes (v : ℕ) : List ℕ :=
  [v % 256, v / 256 % 256, v / 65536 % 256, v / 16777216 % 256]

/-- The clamp in `audioBufferToWav` (page.tsx:790):
`Math.max(-1, Math.min(1, samples[i]))`. -/
def clampSample (s : ℚ) : ℚ :=
  max (-1) (min 1 s)

/-- Truncation toward zero: the integer conversion JavaScript's `ToInt16`
performs on the float argument of `DataView.setInt16` (ECMAScript
`ToIntegerOrInfinity` truncates, it does not round). -/
def ratTrunc (q : ℚ) : ℤ :=
  if 0 ≤ q then ⌊q⌋ else ⌈q⌉

/-- The per-sample quantization of `view.setInt16(offset, sample * 0x7fff, true)`
(page.tsx:791) after the clamp: `ToInt16(clamp(s) * 32767)`. -/
def quantizeSample (s : ℚ) : ℤ :=
  ratTrunc (clampSample s * 32767)

/-- Modelled from the spec (§4.5): the spec's own words quantize as
`round(sample * 32767)` after the clamp.  Kept solely for comparison with the
source-derived `quantizeSample`.  `round` is round-half-up, `⌊q + 1/2⌋`. -/
def quantizeSampleSpecRound (s : ℚ) : ℤ :=
  round (clampSample s * 32767)

/-- `setInt16` raw storage: the two's-complement value modulo 2^16,
little-endian. -/
def toInt16Bytes (v : ℤ) : List ℕ :=
  [(v % 65536).toNat % 256, (v % 65536).toNat / 256]

/-- The 44-byte RIFF/WAVE header written by `audioBufferToWav`
(page.tsx:773-785), for `numSamples` mono 16-bit samples:
offsets 0 "RIFF", 4 chunk size `36 + 2N`, 8 "WAVE", 12 "fmt ", 16 size 16,
20 format tag 1, 22 channels 1, 24 sample rate, 28 byte rate `sampleRate*2`,
32 block align 2, 34 bits 16, 36 "data", 40 data size `2N`. -/
def wavHeader (sampleRate : ℕ) (numSamples : ℕ) : List ℕ :=
  asciiBytes "RIFF" ++ toUInt32Bytes (36 + numSamples * 2) ++
  asciiBytes "WAVE" ++ asciiBytes "fmt " ++ toUInt32Bytes 16 ++
  toUInt16Bytes 1 ++ toUInt16Bytes 1 ++ toUInt32Bytes sampleRate ++
  toUInt32Bytes (sampleRate * 2) ++ toUInt16Bytes 2 ++ toUInt16Bytes 16 ++
  asciiBytes "data" ++ toUInt32Bytes (numSamples * 2)

/-- `audioBufferToWav` (page.tsx:762-796): header then, from offset 44, each
sample clamped, quantized and stored as a little-endian signed 16-bit value. -/
def audioBufferToWav (sampleRate : ℕ) (samples : List ℚ) : List ℕ :=
  wavHeader sampleRate samples.length ++
  (samples.map (fun s => toInt16Bytes (quantizeSample s))).flatten

/-- Outcome of an export request: either the empty-selection notification
(the destructive toast at page.tsx:697-702, no archive) or a zip archive
holding one WAV per selected press.  Filenames and the metadata JSON are
presentation data and are not modelled. -/
inductive ExportOutcome where
  | emptySelection : ExportOutcome
  | archive : List (List ℕ) → ExportOutcome
deriving Repr, DecidableEq

/-- `exportSelectedSegments` (page.tsx:695-759).  The guard is
`!audioData || selectedKeyPresses.size === 0`.  The handler calls no state
setter in any branch, so the returned state is the input state. -/
def exportSelectedSegments (s : AppState) : AppState × ExportOutcome :=
  match s.audioData with
  | none => (s, ExportOutcome.emptySelection)
  | some ad =>
      if s.selectedKeyPresses = ∅ then (s, ExportOutcome.emptySelection)
      else
        (s, ExportOutcome.archive
          (((s.keyPresses.filter (fun kp => decide (kp.id ∈ s.selectedKeyPresses))).map
            (fun kp => audioBufferToWav ad.sampleRate (extractSegment ad kp)))))

/-- The invariant of claim C2: `selectedKeyPresses` is exactly the id set of
the presses whose `selected` flag is true. -/
def selectionConsistent (s : AppState) : Prop :=
  s.selectedKeyPresses =
    ((s.keyPresses.filter (fun kp => kp.selected)).map (fun kp => kp.id)).toFinset

instance (s : AppState) : Decidable (selectionConsistent s) := by
  unfold selectionConsistent; infer_instance

/-- Reference recursion used only to reason about the `handleCanvasClick`
scan: once a champion `c` within `0.1` is held, a later press wins exactly
when it is strictly closer (the loop's second conjunct `distance < 0.1` is
then implied). -/
def bestFrom (clickTime : ℚ) (c : KeyPress) : List KeyPress → KeyPress
  | [] => c
  | x :: xs =>
      if keyDistance clickTime x < keyDistance clickTime c
      then bestFrom clickTime x xs else bestFrom clickTime c xs

/-- Reference recursion provably equal to `findClosestKey`: skip presses at
distance ≥ 0.1, then run `bestFrom` from the first press within 0.1. -/
def specFind (clickTime : ℚ) : List KeyPress → Option KeyPress
  | [] => none
  | x :: xs =>
      if keyDistance clickTime x < 1/10
      then some (bestFrom clickTime x xs) else specFind clickTime xs

/-! ### Concrete runs used by counterexamples and witnesses -/

/-- A 10-second decoded buffer (sample payload irrelevant to viewport claims). -/
def c1Audio : AudioData := { samples := [], duration := 10, sampleRate := 16000 }

/-- Load the 10-second buffer into a fresh session. -/
def c1Loaded : AppState := processAudioBlob initialState c1Audio

/-- Press the zoom-in button eight times: zoom becomes `(6/5)^8 ≈ 4.3`. -/
def c1Zoomed : AppState := zoomInButton^[8] c1Loaded

/-- Drag far right: the pan clamp leaves `panOffset = 10 - 10/(6/5)^8 ≈ 7.67`,
the largest pan the invariant allows at this zoom. -/
def c1Panned : AppState := handleMouseMove c1Zoomed 100

/-- One wheel-down tick: zoom shrinks to `(6/5)^8 * 9/10` but `panOffset`
stays put. -/
def c1AfterWheel : AppState := handleWheel c1Panned true

/-- Eight zoom-out button presses from there: zoom reaches exactly 1 while
`panOffset` still holds its old value. -/
def c1ZoomedOut : AppState := zoomOutButton^[8] c1AfterWheel

/-- Session for claim C2: record one key press at t = 1 s against a 2-second
buffer. -/
def c2Audio : AudioData := { samples := [], duration := 2, sampleRate := 16000 }

/-- State after `startRecording` and one `handleKeyDown` at t = 1. -/
def c2Recorded : AppState :=
  handleKeyDown (startRecording initialState) "key-1" "a" "KeyA" 1

/-- State after the recording stopped and decoded. -/
def c2Ready : AppState := processAudioBlob c2Recorded c2Audio

/-- State after selecting the press through its timeline entry. -/
def c2Selected : AppState :=
  timelineEntryClick c2Ready (mkKeyPress "key-1" "a" "KeyA" 1)

/-- State after hitting "Start Recording" again. -/
def c2Restarted : AppState := startRecording c2Selected

/-- Event for claims C4/C8: a key pressed 5 s into a recording. -/
def c8Event : KeyPress := mkKeyPress "key-2" "b" "KeyB" 5

/-- A decoded buffer only 0.3 s long (e.g. a subsequently uploaded file). -/
def c8Audio : AudioData := { samples := [], duration := 3/10, sampleRate := 16000 }

/-- Loading the short buffer clamps the event's `endTime` to 0.3 while its
`startTime` stays 4.5. -/
def c8State : AppState :=
  processAudioBlob { initialState with keyPresses := [c8Event] } c8Audio

/-- The clamped event itself. -/
def c8Clamped : KeyPress := clampKeyPress (3/10) c8Event

/-- Degenerate event for claim C5's counterexample: pressed 4 s in, buffer
0.25 s long at 8000 Hz. -/
def c5Audio : AudioData := { samples := [], duration := 1/4, sampleRate := 8000 }

/-- The C5 event after clamping. -/
def c5Clamped : KeyPress := clampKeyPress (1/4) (mkKeyPress "key-3" "c" "KeyC" 4)

/-- A 2-second buffer for the hit-testing witness. -/
def c3Audio : AudioData := { samples := [], duration := 2, sampleRate := 8000 }

/-- Session with one press at t = 1 s, used by the hit-testing witness. -/
def c3State : AppState :=
  processAudioBlob (handleKeyDown (startRecording initialState) "key-5" "d" "KeyD" 1)
    c3Audio

/-- Session for the viewport witness: a 10-second buffer freshly loaded. -/
def cwAudio : AudioData := { samples := [], duration := 10, sampleRate := 8000 }

/-- Freshly loaded state (zoom 1, pan 0) for the viewport witness. -/
def cwState : AppState := processAudioBlob initialState cwAudio

/-- Buffer for the degenerate-segment witness: 0.5 s at 16000 Hz. -/
def c4WitAudio : AudioData := { samples := [], duration := 1/2, sampleRate := 16000 }

/-- Event at t = 1 clamped to the 0.5 s buffer: `startTime = endTime = 0.5`,
so the extraction window is empty but well-ordered. -/
def c4WitEvent : KeyPress := clampKeyPress (1/2) (mkKeyPress "key-4" "a" "KeyA" 1)

/-- Buffer for the extraction witness (spec Scenario A): 3 s at 16000 Hz. -/
def c5WitAudio : AudioData := { samples := [1/4, 1/2, 3/4], duration := 3, sampleRate := 16000 }

/-- Event at t = 1.2 s clamped to the 3 s buffer: window `[0.7, 1.7]`. -/
def c5WitEvent : KeyPress := clampKeyPress 3 (mkKeyPress "key-6" "e" "KeyE" (6/5))

/-- Session with two presses for the frame-property witness. -/
def c10Base : AppState :=
  handleKeyDown (handleKeyDown (startRecording initialState) "press-1" "a" "KeyA" 1)
    "press-2" "s" "KeyS" 2

/-- ... after selecting the first press through its timeline entry. -/
def c10State : AppState :=
  timelineEntryClick c10Base (mkKeyPress "press-1" "a" "KeyA" 1)

/-! ### Helper lemmas about the WAV encoder -/

theorem asciiBytes_RIFF : asciiBytes "RIFF" = [82, 73, 70, 70] := by decide

theorem asciiBytes_WAVE : asciiBytes "WAVE" = [87, 65, 86, 69] := by decide

theorem asciiBytes_fmt : asciiBytes "fmt " = [102, 109, 116, 32] := by decide

theorem asciiBytes_data : asciiBytes "data" = [100, 97, 116, 97] := by decide

theorem toInt16Bytes_length (v : ℤ) : (toInt16Bytes v).length = 2 := rfl

theorem wavHeader_length (sampleRate numSamples : ℕ) :
    (wavHeader sampleRate numSamples).length = 44 := by
  simp [wavHeader, asciiBytes_RIFF, asciiBytes_WAVE, asciiBytes_fmt,
        asciiBytes_data, toUInt16Bytes, toUInt32Bytes]

theorem wavData_length (samples : List ℚ) :
    ((samples.map (fun s => toInt16Bytes (quantizeSample s))).flatten).length =
      2 * samples.length := by
  induction samples with
  | nil => rfl
  | cons x xs ih =>
      rw [List.map_cons, List.flatten_cons, List.length_append, ih,
          toInt16Bytes_length, List.length_cons]
      ring

theorem wav_length (sampleRate : ℕ) (samples : List ℚ) :
    (audioBufferToWav sampleRate samples).length = 44 + 2 * samples.length := by
  rw [audioBufferToWav, List.length_append, wavHeader_length, wavData_length]

theorem wav_drop_header (sampleRate : ℕ) (samples : List ℚ) :
    (audioBufferToWav sampleRate samples).drop 44 =
      (samples.map (fun s => toInt16Bytes (quantizeSample s))).flatten := by
  rw [audioBufferToWav, ← wavHeader_length sampleRate samples.length]
  exact List.drop_left _ _

/-! ### Characterization of the hit-test scan -/

theorem scanStep_none (t : ℚ) (kp : KeyPress) :
    scanStep t none kp = if keyDistance t kp < 1/10 then some kp else none := rfl

theorem scanStep_some (t : ℚ) (c kp : KeyPress) :
    scanStep t (some c) kp =
      if keyDistance t kp < keyDistance t c ∧ keyDistance t kp < 1/10
      then some kp else some c := rfl

theorem foldl_scanStep_some (t : ℚ) (xs : List KeyPress) :
    ∀ c : KeyPress, keyDistance t c < 1/10 →
      xs.foldl (scanStep t) (some c) = some (bestFrom t c xs) := by
  induction xs with
  | nil => intro c _; rfl
  | cons x xs ih =>
      intro c hc
      rw [List.foldl_cons, scanStep_some]
      simp only [bestFrom]
      by_cases hx : keyDistance t x < keyDistance t c
      · rw [if_pos ⟨hx, lt_trans hx hc⟩, if_pos hx]
        exact ih x (lt_trans hx hc)
      · rw [if_neg (fun h => hx h.1), if_neg hx]
        exact ih c hc

theorem findClosestKey_eq_specFind (t : ℚ) (ps : List KeyPress) :
    findClosestKey t ps = specFind t ps := by
  induction ps with
  | nil => rfl
  | cons x xs ih =>
      rw [findClosestKey, List.foldl_cons, scanStep_none]
      simp only [specFind]
      by_cases hx : keyDistance t x < 1/10
      · rw [if_pos hx, if_pos hx]
        exact foldl_scanStep_some t xs x hx
      · rw [if_neg hx, if_neg hx]
        exact ih

theorem bestFrom_le_init (t : ℚ) (xs : List KeyPress) :
    ∀ c : KeyPress, keyDistance t (bestFrom t c xs) ≤ keyDistance t c := by
  induction xs with
  | nil => intro c; exact le_refl _
  | cons x xs ih =>
      intro c
      simp only [bestFrom]
      by_cases hx : keyDistance t x < keyDistance t c
      · rw [if_pos hx]; exact le_of_lt (lt_of_le_of_lt (ih x) hx)
      · rw [if_neg hx]; exact ih c

theorem bestFrom_min (t : ℚ) (xs : List KeyPress) :
    ∀ c : KeyPress, ∀ f ∈ xs, keyDistance t (bestFrom t c xs) ≤ keyDistance t f := by
  induction xs with
  | nil => intro c f hf; cases hf
  | cons x xs ih =>
      intro c f hf
      simp only [bestFrom]
      rcases List.mem_cons.mp hf with rfl | hf'
      · by_cases hx : keyDistance t f < keyDistance t c
        · rw [if_pos hx]; exact bestFrom_le_init t xs f
        · rw [if_neg hx]
          exact le_trans (bestFrom_le_init t xs c) (le_of_not_lt hx)
      · by_cases hx : keyDistance t x < keyDistance t c
        · rw [if_pos hx]; exact ih x f hf'
        · rw [if_neg hx]; exact ih c f hf'

theorem bestFrom_of_min (t : ℚ) (xs : List KeyPress) :
    ∀ c : KeyPress, (∀ f ∈ xs, keyDistance t c ≤ keyDistance t f) →
      bestFrom t c xs = c := by
  induction xs with
  | nil => intro c _; rfl
  | cons x xs ih =>
      intro c h
      simp only [bestFrom]
      rw [if_neg (not_lt.mpr (h x (List.mem_cons_self x xs)))]
      exact ih c (fun f hf => h f (List.mem_cons_of_mem x hf))

theorem bestFrom_decomp (t : ℚ) (xs : List KeyPress) :
    ∀ c : KeyPress, ∃ l₁ l₂, c :: xs = l₁ ++ bestFrom t c xs :: l₂ ∧
      (∀ f ∈ l₁, keyDistance t (bestFrom t c xs) < keyDistance t f) ∧
      (∀ f ∈ l₂, keyDistance t (bestFrom t c xs) ≤ keyDistance t f) := by
  induction xs with
  | nil => intro c; exact ⟨[], [], rfl, by simp, by simp⟩
  | cons x xs ih =>
      intro c
      by_cases hx : keyDistance t x < keyDistance t c
      · obtain ⟨l₁, l₂, heq, h₁, h₂⟩ := ih x
        refine ⟨c :: l₁, l₂, ?_, ?_, ?_⟩
        · simp only [bestFrom, if_pos hx]
          rw [List.cons_append, ← heq]
        · intro f hf
          simp only [bestFrom, if_pos hx]
          rcases List.mem_cons.mp hf with rfl | hf'
          · exact lt_of_le_of_lt (bestFrom_le_init t xs x) hx
          · exact h₁ f hf'
        · intro f hf
          simp only [bestFrom, if_pos hx]
          exact h₂ f hf
      · obtain ⟨l₁, l₂, heq, h₁, h₂⟩ := ih c
        cases l₁ with
        | nil =>
            simp only [List.nil_append] at heq
            injection heq with hb hl
            refine ⟨[], x :: xs, ?_, by simp, ?_⟩
            · simp only [bestFrom, if_neg hx, List.nil_append, ← hb]
            · intro f hf
              simp only [bestFrom, if_neg hx, ← hb]
              rcases List.mem_cons.mp hf with rfl | hf'
              · exact le_of_not_lt hx
              · exact hb ▸ h₂ f (hl ▸ hf')
        | cons y l₁' =>
            rw [List.cons_append] at heq
            injection heq with hy hxs
            refine ⟨c :: x :: l₁', l₂, ?_, ?_, ?_⟩
            · simp only [bestFrom, if_neg hx, List.cons_append]
              rw [← hxs]
            · intro f hf
              simp only [bestFrom, if_neg hx]
              rcases List.mem_cons.mp hf with rfl | hf'
              · exact hy ▸ h₁ f (by rw [hy]; exact List.mem_cons_self _ _)
              · rcases List.mem_cons.mp hf' with rfl | hf''
                · exact lt_of_lt_of_le
                    (hy ▸ h₁ y (List.mem_cons_self y l₁')) (le_of_not_lt hx)
                · exact h₁ f (List.mem_cons_of_mem y hf'')
            · intro f hf
              simp only [bestFrom, if_neg hx]
              exact h₂ f hf

theorem bestFrom_unique (t : ℚ) (xs : List KeyPress) :
    ∀ (c e : KeyPress) (l₁ l₂ : List KeyPress), c :: xs = l₁ ++ e :: l₂ →
      (∀ f ∈ l₁, keyDistance t e < keyDistance t f) →
      (∀ f ∈ l₂, keyDistance t e ≤ keyDistance t f) →
      bestFrom t c xs = e := by
  induction xs with
  | nil =>
      intro c e l₁ l₂ heq h₁ h₂
      rcases l₁ with _ | ⟨y, l₁'⟩
      · simp only [List.nil_append] at heq
        exact (List.cons_eq_cons.mp heq).1
      · rw [List.cons_append] at heq
        exact absurd (List.cons_eq_cons.mp heq).2 (by simp)
  | cons x xs ih =>
      intro c e l₁ l₂ heq h₁ h₂
      rcases l₁ with _ | ⟨y, l₁'⟩
      · simp only [List.nil_append] at heq
        obtain ⟨hb, hl⟩ := List.cons_eq_cons.mp heq
        subst hb
        simp only [bestFrom]
        rw [if_neg (not_lt.mpr (h₂ x (by rw [← hl]; exact List.mem_cons_self x xs)))]
        exact bestFrom_of_min t xs c
          (fun f hf => h₂ f (by rw [← hl]; exact List.mem_cons_of_mem x hf))
      · rw [List.cons_append] at heq
        obtain ⟨hy, hxs⟩ := List.cons_eq_cons.mp heq
        subst hy
        have hec : keyDistance t e < keyDistance t c :=
          h₁ c (List.mem_cons_self c l₁')
        rcases l₁' with _ | ⟨z, l₁''⟩
        · simp only [List.nil_append] at hxs
          obtain ⟨hxe, hl⟩ := List.cons_eq_cons.mp hxs
          subst hxe
          simp only [bestFrom]
          rw [if_pos hec]
          exact bestFrom_of_min t xs x (fun f hf => h₂ f (hl ▸ hf))
        · rw [List.cons_append] at hxs
          obtain ⟨hxz, hxs'⟩ := List.cons_eq_cons.mp hxs
          subst hxz
          simp only [bestFrom]
          by_cases hx : keyDistance t x < keyDistance t c
          · rw [if_pos hx]
            exact ih x e (x :: l₁'') l₂
              (by rw [List.cons_append, hxs'])
              (fun f hf => by
                rcases List.mem_cons.mp hf with rfl | hf'
                · exact h₁ f (List.mem_cons_of_mem c (List.mem_cons_self f l₁''))
                · exact h₁ f (List.mem_cons_of_mem c (List.mem_cons_of_mem x hf')))
              h₂
          · rw [if_neg hx]
            exact ih c e (c :: l₁'') l₂
              (by rw [List.cons_append, hxs'])
              (fun f hf => by
                rcases List.mem_cons.mp hf with rfl | hf'
                · exact h₁ f (List.mem_cons_self f (x :: l₁''))
                · exact h₁ f (List.mem_cons_of_mem c (List.mem_cons_of_mem x hf')))
              h₂

theorem specFind_none_iff (t : ℚ) (ps : List KeyPress) :
    specFind t ps = none ↔ ∀ f ∈ ps, 1/10 ≤ keyDistance t f := by
  induction ps with
  | nil => simp [specFind]
  | cons x xs ih =>
      simp only [specFind]
      by_cases hx : keyDistance t x < 1/10
      · rw [if_pos hx]
        simp only [List.mem_cons]
        constructor
        · intro h; cases h
        · intro h; exact absurd (h x (Or.inl rfl)) (not_le.mpr hx)
      · rw [if_neg hx]
        rw [ih]
        constructor
        · intro h f hf
          rcases List.mem_cons.mp hf with rfl | hf'
          · exact le_of_not_lt hx
          · exact h f hf'
        · intro h f hf
          exact h f (List.mem_cons_of_mem x hf)

theorem specFind_some_decomp (t : ℚ) (ps : List KeyPress) (e : KeyPress)
    (h : specFind t ps = some e) :
    ∃ l₁ l₂, ps = l₁ ++ e :: l₂ ∧ keyDistance t e < 1/10 ∧
      (∀ f ∈ l₁, keyDistance t e < keyDistance t f) ∧
      (∀ f ∈ l₂, keyDistance t e ≤ keyDistance t f) := by
  induction ps with
  | nil => exact absurd h (by simp [specFind])
  | cons x xs ih =>
      simp only [specFind] at h
      by_cases hx : keyDistance t x < 1/10
      · rw [if_pos hx] at h
        have he : bestFrom t x xs = e := Option.some.inj h
        obtain ⟨l₁, l₂, heq, h₁, h₂⟩ := bestFrom_decomp t xs x
        rw [he] at heq h₁ h₂
        exact ⟨l₁, l₂, heq, lt_of_le_of_lt (he ▸ bestFrom_le_init t xs x) hx,
               h₁, h₂⟩
      · rw [if_neg hx] at h
        obtain ⟨l₁, l₂, heq, hd, h₁, h₂⟩ := ih h
        refine ⟨x :: l₁, l₂, by rw [List.cons_append, heq], hd, ?_, h₂⟩
        intro f hf
        rcases List.mem_cons.mp hf with rfl | hf'
        · exact lt_of_lt_of_le hd (le_of_not_lt hx)
        · exact h₁ f hf'

theorem specFind_some_of_decomp (t : ℚ) (e : KeyPress) :
    ∀ (l₁ l₂ : List KeyPress), keyDistance t e < 1/10 →
      (∀ f ∈ l₁, keyDistance t e < keyDistance t f) →
      (∀ f ∈ l₂, keyDistance t e ≤ keyDistance t f) →
      specFind t (l₁ ++ e :: l₂) = some e := by
  intro l₁
  induction l₁ with
  | nil =>
      intro l₂ hd h₁ h₂
      simp only [List.nil_append, specFind]
      rw [if_pos hd]
      rw [bestFrom_of_min t l₂ e h₂]
  | cons x l₁' ih =>
      intro l₂ hd h₁ h₂
      rw [List.cons_append]
      simp only [specFind]
      by_cases hx : keyDistance t x < 1/10
      · rw [if_pos hx]
        rw [bestFrom_unique t (l₁' ++ e :: l₂) x e (x :: l₁') l₂ rfl h₁ h₂]
      · rw [if_neg hx]
        exact ih l₂ hd (fun f hf => h₁ f (List.mem_cons_of_mem x hf)) h₂

/-- Claim C3: a canvas click at time `t` toggles press `e` exactly when `e`
is the first press attaining the minimum of `|time - t|` over the timeline
and that minimum is strictly below 0.1 s (the decomposition
`keyPresses = l₁ ++ e :: l₂` with strict inequalities on `l₁` says `e` is the
first minimizer, settling ties by insertion order); when no press is within
0.1 s the click changes nothing. -/
theorem C3_hit_testing (s : AppState) (t : ℚ) (hA : s.audioData.isSome = true) :
    (∀ e : KeyPress, findClosestKey t s.keyPresses = some e ↔
        ∃ l₁ l₂, s.keyPresses = l₁ ++ e :: l₂ ∧ |e.time - t| < 1/10 ∧
          (∀ f ∈ l₁, |e.time - t| < |f.time - t|) ∧
          (∀ f ∈ l₂, |e.time - t| ≤ |f.time - t|)) ∧
    (findClosestKey t s.keyPresses = none ↔
      ∀ f ∈ s.keyPresses, 1/10 ≤ |f.time - t|) ∧
    (findClosestKey t s.keyPresses = none → handleCanvasClick s t = s) ∧
    (∀ e : KeyPress, findClosestKey t s.keyPresses = some e →
      handleCanvasClick s t = toggleSelection s e.id) := by
  obtain ⟨ad, had⟩ := Option.isSome_iff_exists.mp hA
  refine ⟨?_, ?_, ?_, ?_⟩
  · intro e
    rw [findClosestKey_eq_specFind]
    constructor
    · intro h
      obtain ⟨l₁, l₂, heq, hd, h₁, h₂⟩ := specFind_some_decomp t s.keyPresses e h
      exact ⟨l₁, l₂, heq, hd, h₁, h₂⟩
    · rintro ⟨l₁, l₂, heq, hd, h₁, h₂⟩
      rw [heq]
      exact specFind_some_of_decomp t e l₁ l₂ hd h₁ h₂
  · rw [findClosestKey_eq_specFind]
    exact specFind_none_iff t s.keyPresses
  · intro h
    simp only [handleCanvasClick, had, h]
  · intro e h
    simp only [handleCanvasClick, had, h]

/-- Witness for C3: clicking at t = 1.05 s next to the press at t = 1 s
(distance 0.05 < 0.1) toggles exactly that press. -/
theorem C3_witness :
    handleCanvasClick c3State (21/20) = toggleSelection c3State "key-5" :=
  (C3_hit_testing c3State (21/20) rfl).2.2.2
    (clampKeyPress 2 (mkKeyPress "key-5" "d" "KeyD" 1))
    (by
      simp [c3State, processAudioBlob, handleKeyDown, startRecording,
            initialState, mkKeyPress, clampKeyPress, c3Audio, findClosestKey,
            scanStep, keyDistance]
      norm_num [abs_lt])

/-! ### Selection consistency helpers -/

/-- Under the consistency invariant and unique ids, the id of a press in the
timeline is in `selectedKeyPresses` exactly when its own flag is set. -/
theorem mem_selected_iff (s : AppState) (hcons : selectionConsistent s)
    (hnodup : (s.keyPresses.map (fun kp => kp.id)).Nodup)
    {kp : KeyPress} (hmem : kp ∈ s.keyPresses) :
    kp.id ∈ s.selectedKeyPresses ↔ kp.selected = true := by
  rw [hcons]
  simp only [List.mem_toFinset, List.mem_map, List.mem_filter]
  constructor
  · rintro ⟨kq, ⟨hq, hqsel⟩, hid⟩
    have hk : kq = kp := List.inj_on_of_nodup_map hnodup hq hmem hid
    rw [← hk]; exact hqsel
  · intro hsel
    exact ⟨kp, ⟨hmem, hsel⟩, rfl⟩

/-- Dropping `2*i` bytes from a flattened list of byte pairs drops the first
`i` pairs. -/
theorem flatten_pairs_drop (L : List (List ℕ)) (hL : ∀ l ∈ L, l.length = 2) :
    ∀ i : ℕ, L.flatten.drop (2 * i) = (L.drop i).flatten := by
  induction L with
  | nil => intro i; simp
  | cons x L ih =>
      intro i
      cases i with
      | zero => simp
      | succ i =>
          obtain ⟨a, b, rfl⟩ := List.length_eq_two.mp (hL x (List.mem_cons_self x L))
          have hL' : ∀ l ∈ L, l.length = 2 :=
            fun l hl => hL l (List.mem_cons_of_mem _ hl)
          rw [show 2 * (i + 1) = 2 * i + 1 + 1 by ring]
          simp only [List.flatten_cons, List.cons_append, List.nil_append,
                     List.drop_succ_cons]
          exact ih hL' i

/-! ### Claim theorems -/

/-- Claim C2 (code bug): the invariant "`selectedIds` is exactly the set of
ids of events with `selected = true`" holds after a toggle, but restarting a
recording clears the key-press list while leaving `selectedKeyPresses`
untouched, so the restarted session violates it: one stale id remains
selected with no events at all. -/
theorem C2_restart_stale_selection :
    selectionConsistent c2Selected ∧ ¬ selectionConsistent c2Restarted ∧
    c2Restarted.keyPresses = [] ∧ c2Restarted.selectedKeyPresses ≠ ∅ := by
  decide

/-- Claim C9: when export is requested with an empty selection, the handler
reports the empty-selection notification, produces no archive, and returns
the session state unchanged. -/
theorem C9_empty_selection (s : AppState) (h : s.selectedKeyPresses = ∅) :
    exportSelectedSegments s = (s, ExportOutcome.emptySelection) := by
  unfold exportSelectedSegments
  cases hA : s.audioData with
  | none => rfl
  | some ad => simp [h]

/-- Witness for C9 at the initial state. -/
theorem C9_witness :
    exportSelectedSegments initialState = (initialState, ExportOutcome.emptySelection) :=
  C9_empty_selection initialState rfl

/-- Claim C10: assuming `selected` flags agree with `selectedKeyPresses` and
ids are unique, toggling one press flips exactly that press's flag and its
id's membership in the selected set; every other field of every press, the
list order, the audio, zoom, pan and trim markers are unchanged. -/
theorem C10_toggle_frame (s : AppState) (target : KeyPress)
    (_hmem : target ∈ s.keyPresses)
    (hnodup : (s.keyPresses.map (fun kp => kp.id)).Nodup)
    (hcons : selectionConsistent s) :
    (toggleSelection s target.id).keyPresses =
      s.keyPresses.map (fun kp =>
        if kp.id = target.id then { kp with selected := !kp.selected } else kp) ∧
    (target.id ∈ (toggleSelection s target.id).selectedKeyPresses ↔
      target.id ∉ s.selectedKeyPresses) ∧
    (∀ j : String, j ≠ target.id →
      (j ∈ (toggleSelection s target.id).selectedKeyPresses ↔
        j ∈ s.selectedKeyPresses)) ∧
    (toggleSelection s target.id).audioData = s.audioData ∧
    (toggleSelection s target.id).zoomLevel = s.zoomLevel ∧
    (toggleSelection s target.id).panOffset = s.panOffset ∧
    (toggleSelection s target.id).trimStart = s.trimStart ∧
    (toggleSelection s target.id).trimEnd = s.trimEnd := by
  refine ⟨?_, ?_, ?_, rfl, rfl, rfl, rfl, rfl⟩
  · show s.keyPresses.map _ = s.keyPresses.map _
    apply List.map_congr_left
    intro kp hkp
    have hiffS : kp.id ∈ s.selectedKeyPresses ↔ kp.selected = true :=
      mem_selected_iff s hcons hnodup hkp
    by_cases hid : kp.id = target.id
    · rw [if_pos hid]
      by_cases hT : target.id ∈ s.selectedKeyPresses
      · have hsel : kp.selected = true := hiffS.mp (hid ▸ hT)
        have hdec : decide (kp.id ∈
            (if target.id ∈ s.selectedKeyPresses
             then s.selectedKeyPresses.erase target.id
             else insert target.id s.selectedKeyPresses)) = !kp.selected := by
          rw [if_pos hT, hsel]
          simp [Finset.mem_erase, hid]
        rw [hdec]
      · have hsel : kp.selected = false := by
          rcases Bool.eq_false_or_eq_true kp.selected with h | h
          · exact absurd (hiffS.mpr h) (hid ▸ hT)
          · exact h
        have hdec : decide (kp.id ∈
            (if target.id ∈ s.selectedKeyPresses
             then s.selectedKeyPresses.erase target.id
             else insert target.id s.selectedKeyPresses)) = !kp.selected := by
          rw [if_neg hT, hsel]
          simp [Finset.mem_insert, hid]
        rw [hdec]
    · rw [if_neg hid]
      have hiffN : kp.id ∈
          (if target.id ∈ s.selectedKeyPresses
           then s.selectedKeyPresses.erase target.id
           else insert target.id s.selectedKeyPresses) ↔
          kp.selected = true := by
        by_cases hT : target.id ∈ s.selectedKeyPresses
        · rw [if_pos hT, Finset.mem_erase]
          simp [hid, hiffS]
        · rw [if_neg hT, Finset.mem_insert]
          simp [hid, hiffS]
      have hdec : decide (kp.id ∈
          (if target.id ∈ s.selectedKeyPresses
           then s.selectedKeyPresses.erase target.id
           else insert target.id s.selectedKeyPresses)) = kp.selected := by
        rcases Bool.eq_false_or_eq_true kp.selected with h | h
        · rw [h]; simp [hiffN, h]
        · rw [h]; simp [hiffN, h]
      rw [hdec]
  · show target.id ∈
        (if target.id ∈ s.selectedKeyPresses
         then s.selectedKeyPresses.erase target.id
         else insert target.id s.selectedKeyPresses) ↔ _
    by_cases hT : target.id ∈ s.selectedKeyPresses
    · rw [if_pos hT]; simp [Finset.mem_erase, hT]
    · rw [if_neg hT]; simp [Finset.mem_insert, hT]
  · intro j hj
    show j ∈
        (if target.id ∈ s.selectedKeyPresses
         then s.selectedKeyPresses.erase target.id
         else insert target.id s.selectedKeyPresses) ↔ _
    by_cases hT : target.id ∈ s.selectedKeyPresses
    · rw [if_pos hT, Finset.mem_erase]; simp [hj]
    · rw [if_neg hT, Finset.mem_insert]; simp [hj]

/-- Witness for C10: toggling the unselected second press of a two-press
session rewrites the list exactly as the frame property states. -/
theorem C10_witness :
    (toggleSelection c10State (mkKeyPress "press-2" "s" "KeyS" 2).id).keyPresses =
      c10State.keyPresses.map (fun kp =>
        if kp.id = (mkKeyPress "press-2" "s" "KeyS" 2).id
        then { kp with selected := !kp.selected } else kp) :=
  (C10_toggle_frame c10State (mkKeyPress "press-2" "s" "KeyS" 2)
    (by simp [c10State, c10Base, timelineEntryClick, toggleSelection,
              handleKeyDown, startRecording, initialState, mkKeyPress])
    (by simp [c10State, c10Base, timelineEntryClick, toggleSelection,
              handleKeyDown, startRecording, initialState, mkKeyPress])
    (by decide)).1


/-- Claim C1 (counterexample): after a maximal legal pan at zoom `(6/5)^8`
on a 10-second buffer the viewport invariant holds, but one wheel-down tick
shrinks the zoom without re-clamping `panOffset`, pushing the visible window
past the buffer end; zooming the rest of the way out reaches `zoomLevel = 1`
with `panOffset` still nonzero. -/
theorem C1_counterexample :
    c1Panned.panOffset + c1Audio.duration / c1Panned.zoomLevel ≤ c1Audio.duration ∧
    c1Audio.duration < c1AfterWheel.panOffset + c1Audio.duration / c1AfterWheel.zoomLevel ∧
    c1ZoomedOut.zoomLevel = 1 ∧ c1ZoomedOut.panOffset ≠ 0 := by
  refine ⟨?_, ?_, ?_, ?_⟩ <;>
    · simp [c1ZoomedOut, c1AfterWheel, c1Panned, c1Zoomed, c1Loaded, c1Audio,
            initialState, handleWheel, handleMouseMove, processAudioBlob,
            zoomInButton, zoomOutButton, Function.iterate_succ,
            Function.iterate_zero, Function.comp]
      norm_num

/-- Claim C1 (amended): a pan operation clamps `panOffset` into
`[0, duration - duration/zoomLevel]`, so after a pan the visible window lies
inside `[0, duration]` (given `zoomLevel ≥ 1`, `duration ≥ 0`); zoom
operations clamp only `zoomLevel` into `[1, 20]` and leave `panOffset`
unchanged (no re-clamp); `panOffset` is forced to 0 at zoom 1 only by
Reset View. -/
theorem C1_amended (s : AppState) (ad : AudioData) (panDelta : ℚ)
    (had : s.audioData = some ad) (hz : 1 ≤ s.zoomLevel) (hd : 0 ≤ ad.duration) :
    0 ≤ (handleMouseMove s panDelta).panOffset ∧
    (handleMouseMove s panDelta).panOffset +
      ad.duration / (handleMouseMove s panDelta).zoomLevel ≤ ad.duration ∧
    (∀ w : Bool, (handleWheel s w).panOffset = s.panOffset ∧
      1 ≤ (handleWheel s w).zoomLevel ∧ (handleWheel s w).zoomLevel ≤ 20) ∧
    (zoomInButton s).panOffset = s.panOffset ∧
    (zoomOutButton s).panOffset = s.panOffset ∧
    (resetView s).zoomLevel = 1 ∧ (resetView s).panOffset = 0 := by
  have hmm : handleMouseMove s panDelta =
      { s with panOffset := max 0 (min (ad.duration - ad.duration / s.zoomLevel)
                              (s.panOffset + panDelta)) } := by
    simp only [handleMouseMove, had]
  refine ⟨?_, ?_, ?_, rfl, rfl, rfl, rfl⟩
  · rw [hmm]; exact le_max_left 0 _
  · rw [hmm]
    show max 0 (min (ad.duration - ad.duration / s.zoomLevel)
          (s.panOffset + panDelta)) + ad.duration / s.zoomLevel ≤ ad.duration
    have hdz : ad.duration / s.zoomLevel ≤ ad.duration := div_le_self hd hz
    have hle : max 0 (min (ad.duration - ad.duration / s.zoomLevel)
          (s.panOffset + panDelta)) ≤ ad.duration - ad.duration / s.zoomLevel :=
      max_le (by linarith) (min_le_left _ _)
    linarith
  · intro w
    refine ⟨rfl, le_max_left 1 _, ?_⟩
    exact max_le (by norm_num) (min_le_left _ _)

/-- Witness for C1 (amended) on a freshly loaded 10-second buffer. -/
theorem C1_witness :
    (handleMouseMove cwState 3).panOffset +
      cwAudio.duration / (handleMouseMove cwState 3).zoomLevel ≤ cwAudio.duration :=
  (C1_amended cwState cwAudio 3 rfl (le_refl 1) (by norm_num [cwAudio])).2.1

/-- Claim C8 (counterexample): a press recorded at t = 5 s whose session is
then given a 0.3-second buffer gets `endTime` clamped to 0.3, so
`windowStart ≤ eventTime ≤ windowEnd` fails (0.3 < 5 and 0.3 < 4.5). -/
theorem C8_counterexample :
    c8State.keyPresses = [c8Clamped] ∧ c8Clamped.endTime < c8Clamped.time ∧
    c8Clamped.endTime < c8Clamped.startTime := by
  refine ⟨?_, ?_, ?_⟩
  · simp [c8State, processAudioBlob, c8Clamped, c8Event, c8Audio, initialState]
  · simp [c8Clamped, clampKeyPress, c8Event, mkKeyPress]
    norm_num
  · simp [c8Clamped, clampKeyPress, c8Event, mkKeyPress]
    norm_num

/-- Claim C8 (amended): `windowStart = max(0, eventTime - 0.5) ≥ 0` from
creation onward and the clamp never touches it; at creation (with
`eventTime ≥ 0`) `windowStart ≤ eventTime ≤ windowEnd`; after clamping,
`windowEnd ≤ durationSeconds`, and `eventTime ≤ windowEnd` persists exactly
when `eventTime ≤ durationSeconds`. -/
theorem C8_amended (id key code : String) (t d : ℚ) (ht : 0 ≤ t) :
    (mkKeyPress id key code t).startTime = max 0 (t - 1/2) ∧
    0 ≤ (mkKeyPress id key code t).startTime ∧
    (mkKeyPress id key code t).startTime ≤ t ∧
    t ≤ (mkKeyPress id key code t).endTime ∧
    (clampKeyPress d (mkKeyPress id key code t)).startTime =
      (mkKeyPress id key code t).startTime ∧
    (clampKeyPress d (mkKeyPress id key code t)).endTime ≤ d ∧
    (t ≤ d → t ≤ (clampKeyPress d (mkKeyPress id key code t)).endTime) := by
  refine ⟨rfl, le_max_left 0 _, ?_, ?_, rfl, ?_, ?_⟩
  · show max 0 (t - 1/2) ≤ t
    exact max_le ht (by linarith)
  · show t ≤ t + 1/2
    linarith
  · show min (t + 1/2) d ≤ d
    exact min_le_right _ _
  · intro hdt
    show t ≤ min (t + 1/2) d
    exact le_min (by linarith) hdt

/-- Witness for C8 (amended) at t = 2, duration 3. -/
theorem C8_witness :
    (mkKeyPress "key-8" "a" "KeyA" 2).startTime = max 0 (2 - 1/2) :=
  (C8_amended "key-8" "a" "KeyA" 2 3 (by norm_num)).1


/-- Claim C4 (counterexample): for the reachable clamped event of
`c8State` (pressed at t = 5 s, buffer 0.3 s), the code's `segmentLength`
variable `floor(endTime*sr) - floor(startTime*sr)` is negative, refuting
"the extracted segment has length ≥ 0 for every KeyEvent". -/
theorem C4_counterexample : segmentLength c8Audio.sampleRate c8Clamped < 0 := by
  simp [segmentLength, endSample, startSample, c8Clamped, clampKeyPress,
        c8Event, mkKeyPress, c8Audio]
  norm_num [Int.floor_eq_iff]

/-- Claim C4 (amended): for every KeyEvent whose window is well-ordered
(`windowStart ≤ windowEnd`), the segment length is ≥ 0; a zero-length
segment yields an empty sample list and encodes to a 44-byte WAV
(zero-sample body) — the copy loop and encoder never fail on it. -/
theorem C4_amended (ad : AudioData) (kp : KeyPress) (h : kp.startTime ≤ kp.endTime) :
    0 ≤ segmentLength ad.sampleRate kp ∧
    (segmentLength ad.sampleRate kp = 0 →
      extractSegment ad kp = [] ∧
      (audioBufferToWav ad.sampleRate (extractSegment ad kp)).length = 44) := by
  have h0 : 0 ≤ segmentLength ad.sampleRate kp := by
    rw [segmentLength, sub_nonneg, endSample, startSample]
    exact Int.floor_mono (mul_le_mul_of_nonneg_right h (Nat.cast_nonneg _))
  refine ⟨h0, fun hz => ?_⟩
  have he : extractSegment ad kp = [] := by
    rw [extractSegment, hz]
    rfl
  refine ⟨he, ?_⟩
  rw [he, wav_length]
  rfl

/-- Witness for C4 (amended): the degenerate event whose window collapses to
`[0.5, 0.5]`. -/
theorem C4_witness : 0 ≤ segmentLength c4WitAudio.sampleRate c4WitEvent :=
  (C4_amended c4WitAudio c4WitEvent
    (by norm_num [c4WitEvent, clampKeyPress, mkKeyPress])).1

/-- Claim C5 (counterexample): at the reachable degenerate event of
`c5Clamped` (window clamped to end before it starts) the copy loop produces
0 samples, not `floor(windowEnd*sr) - floor(windowStart*sr) = -26000`, so the
unconditional length formula fails. -/
theorem C5_counterexample :
    ((extractSegment c5Audio c5Clamped).length : ℤ) ≠
      ⌊c5Clamped.endTime * (c5Audio.sampleRate : ℚ)⌋ -
        ⌊c5Clamped.startTime * (c5Audio.sampleRate : ℚ)⌋ := by
  have hlen : (extractSegment c5Audio c5Clamped).length =
      (segmentLength c5Audio.sampleRate c5Clamped).toNat := by
    rw [extractSegment, List.length_map, List.length_range]
  have hrhs : ⌊c5Clamped.endTime * (c5Audio.sampleRate : ℚ)⌋ -
      ⌊c5Clamped.startTime * (c5Audio.sampleRate : ℚ)⌋ =
      segmentLength c5Audio.sampleRate c5Clamped := rfl
  have hseg : segmentLength c5Audio.sampleRate c5Clamped = -26000 := by
    simp [segmentLength, endSample, startSample, c5Clamped, clampKeyPress,
          mkKeyPress, c5Audio]
    norm_num [Int.floor_eq_iff]
  rw [hlen, hrhs, hseg]
  decide

/-- Claim C5 (amended): whenever `windowStart ≤ windowEnd`, the extracted
segment has exactly `floor(windowEnd*sr) - floor(windowStart*sr)` samples,
and sample `j` equals source sample `floor(windowStart*sr) + j` when that
index is within the source bounds and 0 otherwise (silence padding). -/
theorem C5_amended (ad : AudioData) (kp : KeyPress) (h : kp.startTime ≤ kp.endTime) :
    ((extractSegment ad kp).length : ℤ) =
      ⌊kp.endTime * (ad.sampleRate : ℚ)⌋ - ⌊kp.startTime * (ad.sampleRate : ℚ)⌋ ∧
    ∀ j : ℕ, j < (extractSegment ad kp).length →
      (extractSegment ad kp).getD j 0 =
        (if 0 ≤ startSample ad.sampleRate kp + (j : ℤ) ∧
            (startSample ad.sampleRate kp + (j : ℤ)).toNat < ad.samples.length
         then ad.samples.getD (startSample ad.sampleRate kp + (j : ℤ)).toNat 0
         else 0) := by
  have h0 : 0 ≤ segmentLength ad.sampleRate kp := by
    rw [segmentLength, sub_nonneg, endSample, startSample]
    exact Int.floor_mono (mul_le_mul_of_nonneg_right h (Nat.cast_nonneg _))
  have hlen : (extractSegment ad kp).length = (segmentLength ad.sampleRate kp).toNat := by
    rw [extractSegment, List.length_map, List.length_range]
  constructor
  · rw [hlen, Int.toNat_of_nonneg h0]
    rfl
  · intro j hj
    have hj' : j < (segmentLength ad.sampleRate kp).toNat := hlen ▸ hj
    have hget : (extractSegment ad kp).getD j 0 =
        sampleAt ad.samples (startSample ad.sampleRate kp + (j : ℤ)) := by
      rw [extractSegment]
      rw [List.getD_eq_getElem _ _ (by rw [List.length_map, List.length_range]; exact hj')]
      simp
    rw [hget, sampleAt]

/-- Witness for C5 (amended), spec Scenario A shape: event at t = 1.2 s on a
3-second 16 kHz buffer. -/
theorem C5_witness :
    ((extractSegment c5WitAudio c5WitEvent).length : ℤ) =
      ⌊c5WitEvent.endTime * (c5WitAudio.sampleRate : ℚ)⌋ -
        ⌊c5WitEvent.startTime * (c5WitAudio.sampleRate : ℚ)⌋ :=
  (C5_amended c5WitAudio c5WitEvent
    (by norm_num [c5WitEvent, clampKeyPress, mkKeyPress])).1

/-- Claim C6 (counterexample): for the input sample 0.7 the code stores
`ToInt16(0.7 * 32767) = trunc(22936.9) = 22936` (bytes `[152, 89]`), while
the claimed `round(0.7 * 32767)` is 22937 — the encoder truncates, it does
not round. -/
theorem C6_counterexample :
    quantizeSample (7/10) = 22936 ∧ quantizeSampleSpecRound (7/10) = 22937 ∧
    (audioBufferToWav 8000 [7/10]).drop 44 = [152, 89] := by
  have hc : clampSample (7/10 : ℚ) = 7/10 := by
    rw [clampSample, min_eq_right (by norm_num : (7:ℚ)/10 ≤ 1),
        max_eq_right (by norm_num : (-1:ℚ) ≤ 7/10)]
  have hq : quantizeSample (7/10) = 22936 := by
    rw [quantizeSample, hc, ratTrunc, if_pos (by norm_num : (0:ℚ) ≤ 7/10 * 32767)]
    norm_num [Int.floor_eq_iff]
  have hr : quantizeSampleSpecRound (7/10) = 22937 := by
    rw [quantizeSampleSpecRound, hc, round_eq]
    norm_num [Int.floor_eq_iff]
  refine ⟨hq, hr, ?_⟩
  rw [wav_drop_header]
  simp only [List.map_cons, List.map_nil, List.flatten_cons, List.flatten_nil,
             List.append_nil, hq]
  decide

/-- Claim C6 (amended): the two bytes the encoder stores at offset `44 + 2i`
are the little-endian two's-complement encoding of
`trunc(clamp(sample_i, -1, 1) * 32767)` (truncation toward zero, JavaScript
`ToInt16`), a deterministic, bit-exact function of the sample. -/
theorem C6_amended (sr : ℕ) (samples : List ℚ) (i : ℕ) (h : i < samples.length) :
    ((audioBufferToWav sr samples).drop (44 + 2 * i)).take 2 =
      toInt16Bytes (ratTrunc (max (-1) (min 1 (samples.getD i 0)) * 32767)) := by
  have h1 : (audioBufferToWav sr samples).drop (44 + 2 * i) =
      ((samples.map (fun s => toInt16Bytes (quantizeSample s))).flatten).drop (2 * i) := by
    have h2 := List.drop_drop (2 * i) 44 (audioBufferToWav sr samples)
    rw [← h2, wav_drop_header]
  have hL : ∀ l ∈ samples.map (fun s => toInt16Bytes (quantizeSample s)),
      l.length = 2 := by
    intro l hl
    obtain ⟨s, _, rfl⟩ := List.mem_map.mp hl
    rfl
  rw [h1, flatten_pairs_drop _ hL i, ← List.map_drop,
      List.drop_eq_getElem_cons h, List.map_cons, List.flatten_cons]
  rw [← toInt16Bytes_length (quantizeSample samples[i]), List.take_left]
  rw [List.getD_eq_getElem _ _ h]
  rfl

/-- Witness for C6 (amended): the second sample of a two-sample buffer. -/
theorem C6_witness :
    ((audioBufferToWav 8000 [1/2, 7/10]).drop (44 + 2 * 1)).take 2 =
      toInt16Bytes (ratTrunc (max (-1) (min 1 (([(1:ℚ)/2, 7/10]).getD 1 0)) * 32767)) :=
  C6_amended 8000 [1/2, 7/10] 1 (by simp)

/-- Claim C7: the encoder output is exactly 44 + 2N bytes: "RIFF", the
little-endian chunk size 36 + 2N, "WAVE", a "fmt " chunk of size 16 with PCM
tag 1, channel count 1, the sample rate, byte rate sampleRate*2, block
align 2 and 16 bits per sample, then a "data" chunk of size 2N holding the
quantized samples. -/
theorem C7_wav_container (sampleRate : ℕ) (samples : List ℚ) :
    (audioBufferToWav sampleRate samples).length = 44 + 2 * samples.length ∧
    audioBufferToWav sampleRate samples =
      [82, 73, 70, 70] ++ toUInt32Bytes (36 + 2 * samples.length) ++
      [87, 65, 86, 69] ++ [102, 109, 116, 32] ++ [16, 0, 0, 0] ++
      [1, 0] ++ [1, 0] ++ toUInt32Bytes sampleRate ++
      toUInt32Bytes (sampleRate * 2) ++ [2, 0] ++ [16, 0] ++
      [100, 97, 116, 97] ++ toUInt32Bytes (2 * samples.length) ++
      (samples.map (fun s => toInt16Bytes (quantizeSample s))).flatten := by
  refine ⟨wav_length sampleRate samples, ?_⟩
  rw [audioBufferToWav, wavHeader, asciiBytes_RIFF, asciiBytes_WAVE,
      asciiBytes_fmt, asciiBytes_data]
  rw [show toUInt32Bytes 16 = [16, 0, 0, 0] from rfl,
      show toUInt16Bytes 1 = [1, 0] from rfl,
      show toUInt16Bytes 2 = [2, 0] from rfl,
      show toUInt16Bytes 16 = [16, 0] from rfl]
  rw [Nat.mul_comm 2 samples.length]

end KeySpot
